import Mathlib

/-!
Verification of the scoring core of `src/app.py` (AI Fit Tool).

The program compares a user-rated task vector against three fixed reference
profiles on ten dimensions, using a canonical 1-10 integer scale.  This file
is a shallow embedding of that core: the dimension table, the scale mapper,
the profile registry, the fit scorer, the radar-polygon construction and the
ranking step, together with proofs of the specified properties.

Modelling conventions: Python integers are `Int`; Python float arithmetic in
`map_to_scale` and `fit_score` is modelled exactly with `ℚ` (all the values
involved are small rationals, and the claims are about the exact expressions
the code computes); code that can raise an exception returns `Except`, with
one error constructor per Python exception class that can be raised.
-/

/-- `DIMENSIONS` in `app.py`: the ten evaluation axes, in display order. -/
def DIMENSIONS : List String :=
  ["Repeatability", "Variation", "Complexity", "Pace", "Scalability",
   "Data Structure", "Adaptability", "Impact", "Explainability", "Cost"]

/-- `SCALE_MIN` in `app.py`. -/
def SCALE_MIN : Int := 1

/-- `SCALE_MAX` in `app.py`. -/
def SCALE_MAX : Int := 10

/-- `SCALE_STEP` in `app.py`. -/
def SCALE_STEP : Int := 1

/-- The exceptions `map_to_scale` can raise: `ValueError` for an
out-of-range input (the code's explicit `raise`), `ZeroDivisionError` for
the unguarded `(value - src_min) / src_span` when `src_span == 0`. -/
inductive MapErr where
  | valueError
  | zeroDivisionError
  deriving DecidableEq

/-- Python's builtin `round` on an exact rational: nearest integer, ties to
even (banker's rounding, as IEEE-754 `round` does on floats). -/
def pyRound (q : ℚ) : Int :=
  if Int.fract q < 1/2 then ⌊q⌋
  else if 1/2 < Int.fract q then ⌊q⌋ + 1
  else if ⌊q⌋ % 2 = 0 then ⌊q⌋ else ⌊q⌋ + 1

/-- `map_to_scale(value, src_min=1, src_max=10)` in `app.py`: range check,
then linear rescale of `value` from `[src_min, src_max]` onto
`[SCALE_MIN, SCALE_MAX]` followed by `int(round(...))`.  The division by
`src_span` is not guarded, so a degenerate source range with an in-range
value raises `ZeroDivisionError`. -/
def map_to_scale (value src_min src_max : Int) : Except MapErr Int :=
  if value < src_min ∨ value > src_max then .error .valueError
  else if src_max - src_min = 0 then .error .zeroDivisionError
  else .ok (pyRound ((SCALE_MIN : ℚ) +
    ((value : ℚ) - (src_min : ℚ)) / ((src_max : ℚ) - (src_min : ℚ)) *
    ((SCALE_MAX : ℚ) - (SCALE_MIN : ℚ))))

/-- The authored raw profile scores: the three list literals inside the
`PROFILES` dict in `app.py`, in its insertion order. -/
def PROFILES_RAW : List (String × List Int) :=
  [("Human",  [9, 4, 3, 2, 1, 5, 8, 7, 7, 1]),
   ("System", [1, 1, 3, 8, 9, 1, 1, 4, 9, 9]),
   ("AI",     [6, 8, 4, 4, 5, 6, 5, 3, 2, 6])]

/-- The `PROFILES` construction in `app.py`: each raw vector is mapped
elementwise through `map_to_scale` with the default source range 1-10; any
raise aborts module initialization, modelled by the `Except` traversal. -/
def buildProfiles : Except MapErr (List (String × List Int)) :=
  PROFILES_RAW.mapM' (fun nv =>
    (nv.2.mapM' (fun v => map_to_scale v 1 10)).map (fun l => (nv.1, l)))

/-- `PROFILES` in `app.py` (the construction succeeds; see
`PROFILES_eq_raw`). -/
def PROFILES : List (String × List Int) :=
  buildProfiles.toOption.getD []

/-- `MAX_TOTAL_DIFF = (SCALE_MAX - SCALE_MIN) * len(DIMENSIONS)` in
`app.py`. -/
def MAX_TOTAL_DIFF : Int := (SCALE_MAX - SCALE_MIN) * DIMENSIONS.length

/-- `defaults = [5] * len(DIMENSIONS)` in `app.py`: the default task
vector, every slider at the midpoint 5. -/
def defaults : List Int := List.replicate DIMENSIONS.length 5

/-- `sum(abs(t - p) for t, p in zip(task, profile))` in `fit_score`:
Python's `zip` silently truncates to the shorter list. -/
def total_diff (task profile : List Int) : Int :=
  ((task.zip profile).map (fun tp => |tp.1 - tp.2|)).sum

/-- The body of `fit_score` with the module-level constant `MAX_TOTAL_DIFF`
as an explicit parameter, so that the scale-collapse configuration can be
stated; `fit_score` itself fixes the parameter to `MAX_TOTAL_DIFF`. -/
def fit_score_core (maxTotalDiff : Int) (task profile : List Int) : ℚ :=
  if maxTotalDiff = 0 then 100
  else max 0 (100 - ((total_diff task profile : ℚ) / (maxTotalDiff : ℚ)) * 100)

/-- `fit_score(task, profile)` in `app.py`. -/
def fit_score (task profile : List Int) : ℚ :=
  fit_score_core MAX_TOTAL_DIFF task profile

/-- The list-closing idiom of `build_radar_figure`:
`categories = DIMENSIONS + [DIMENSIONS[0]]`, `vals = values + values[:1]`. -/
def closeLoop (l : List α) : List α := l ++ l.take 1

/-- The (theta, r) point sequence of one `Scatterpolar` trace in
`build_radar_figure`: the closed category list zipped with the closed value
list. -/
def radarPoints (dims : List String) (values : List Int) : List (String × Int) :=
  (closeLoop dims).zip (closeLoop values)

/-- One step of Python's stable descending sort by score: insert an element
into an already score-descending list, in front of the first element whose
score is `≤` its own, so that elements appearing earlier in the input stay
in front of later tied elements. -/
def insertDesc (x : String × ℚ) : List (String × ℚ) → List (String × ℚ)
  | [] => [x]
  | y :: ys => if y.2 ≤ x.2 then x :: y :: ys else y :: insertDesc x ys

/-- `sorted(scores.items(), key=lambda x: x[1], reverse=True)` in `app.py`:
a stable sort of the (name, score) pairs by score descending. -/
def rank : List (String × ℚ) → List (String × ℚ)
  | [] => []
  | x :: xs => insertDesc x (rank xs)

/-- `scores = {n: fit_score(current_task, v) for n, v in PROFILES.items()}`
in `app.py`, as an association list in the dict's insertion order. -/
def scoresOf (task : List Int) : List (String × ℚ) :=
  PROFILES.map (fun nv => (nv.1, fit_score task nv.2))

/-- `ranked` in `app.py` for a given task vector; `ranked[0]` is the
best-fit line shown to the user. -/
def rankedOf (task : List Int) : List (String × ℚ) :=
  rank (scoresOf task)

/-! ## Basic lemmas -/

theorem exceptBind_ok (a : α) (f : α → Except ε β) : (Except.ok a >>= f) = f a := rfl

theorem exceptMap_ok (f : α → β) (a : α) :
    Except.map f (Except.ok a : Except ε α) = .ok (f a) := rfl

theorem exceptPure_ok (a : α) : (pure a : Except ε α) = .ok a := rfl

theorem pyRound_intCast (n : Int) : pyRound ((n : Int) : ℚ) = n := by
  unfold pyRound
  norm_num [Int.fract_intCast, Int.floor_intCast]

theorem pyRound_bounds (a b : Int) (q : ℚ) (ha : (a : ℚ) ≤ q) (hb : q ≤ (b : ℚ)) :
    a ≤ pyRound q ∧ pyRound q ≤ b := by
  have hfl : a ≤ ⌊q⌋ := Int.le_floor.mpr ha
  have hfu : ⌊q⌋ ≤ b := by
    have := Int.floor_le_floor hb
    simpa using this
  have hsucc : 1/2 ≤ Int.fract q → ⌊q⌋ + 1 ≤ b := by
    intro hh
    have h1 : (⌊q⌋ : ℚ) + 1/2 ≤ q := by
      have h2 := Int.floor_add_fract q
      linarith
    have h3 : (⌊q⌋ : ℚ) < (b : ℚ) := by linarith
    exact Int.add_one_le_iff.mpr (by exact_mod_cast h3)
  unfold pyRound
  split_ifs with h1 h2 h3
  · exact ⟨hfl, hfu⟩
  · exact ⟨le_trans hfl (by omega), hsucc (le_of_lt h2)⟩
  · exact ⟨hfl, hfu⟩
  · have : 1/2 ≤ Int.fract q := le_of_not_lt h1
    exact ⟨le_trans hfl (by omega), hsucc this⟩

theorem map_to_scale_id (v : Int) (h1 : 1 ≤ v) (h2 : v ≤ 10) :
    map_to_scale v 1 10 = .ok v := by
  unfold map_to_scale
  rw [if_neg (by omega), if_neg (by omega)]
  have key : ((SCALE_MIN : Int) : ℚ) +
      ((v : ℚ) - ((1 : Int) : ℚ)) / (((10 : Int) : ℚ) - ((1 : Int) : ℚ)) *
      (((SCALE_MAX : Int) : ℚ) - ((SCALE_MIN : Int) : ℚ)) = ((v : Int) : ℚ) := by
    unfold SCALE_MIN SCALE_MAX
    push_cast
    field_simp
  rw [key, pyRound_intCast]

theorem buildProfiles_ok : buildProfiles = .ok PROFILES_RAW := by
  have h : ∀ v : Int, 1 ≤ v → v ≤ 10 → map_to_scale v 1 10 = .ok v := map_to_scale_id
  simp [buildProfiles, PROFILES_RAW, List.mapM'_cons, List.mapM'_nil,
    exceptBind_ok, exceptMap_ok, exceptPure_ok,
    h 1 (by norm_num) (by norm_num), h 2 (by norm_num) (by norm_num),
    h 3 (by norm_num) (by norm_num), h 4 (by norm_num) (by norm_num),
    h 5 (by norm_num) (by norm_num), h 6 (by norm_num) (by norm_num),
    h 7 (by norm_num) (by norm_num), h 8 (by norm_num) (by norm_num),
    h 9 (by norm_num) (by norm_num)]

theorem PROFILES_eq_raw : PROFILES = PROFILES_RAW := by
  simp [PROFILES, buildProfiles_ok, Except.toOption]

theorem total_diff_cons (a b : Int) (t p : List Int) :
    total_diff (a :: t) (b :: p) = |a - b| + total_diff t p := by
  simp [total_diff, List.zip_cons_cons]

theorem total_diff_nonneg (t : List Int) : ∀ p : List Int, 0 ≤ total_diff t p := by
  induction t with
  | nil => intro p; simp [total_diff]
  | cons a t ih =>
    intro p
    cases p with
    | nil => simp [total_diff]
    | cons b p =>
      rw [total_diff_cons]
      have h1 := abs_nonneg (a - b)
      have h2 := ih p
      omega

theorem total_diff_self (t : List Int) : total_diff t t = 0 := by
  induction t with
  | nil => rfl
  | cons a t ih =>
    rw [total_diff_cons, ih]
    simp

theorem total_diff_eq_zero_iff (t : List Int) :
    ∀ p : List Int, t.length = p.length → (total_diff t p = 0 ↔ t = p) := by
  induction t with
  | nil =>
    intro p h
    cases p with
    | nil => simp [total_diff]
    | cons b p => simp at h
  | cons a t ih =>
    intro p h
    cases p with
    | nil => simp at h
    | cons b p =>
      rw [total_diff_cons]
      have habs := abs_nonneg (a - b)
      have hrest := total_diff_nonneg t p
      constructor
      · intro h0
        have h1 : |a - b| = 0 := by omega
        have h2 : total_diff t p = 0 := by omega
        have ha : a = b := by
          have := abs_eq_zero.mp h1
          omega
        have ht : t = p := (ih p (by simpa using h)).mp h2
        rw [ha, ht]
      · intro he
        injection he with he1 he2
        subst he1
        subst he2
        simp [total_diff_self]

theorem MAX_TOTAL_DIFF_eq : MAX_TOTAL_DIFF = 90 := by decide

theorem fit_score_eq (t p : List Int) :
    fit_score t p = max 0 (100 - ((total_diff t p : ℚ) / 90) * 100) := by
  rw [fit_score, fit_score_core, if_neg (by rw [MAX_TOTAL_DIFF_eq]; norm_num),
    MAX_TOTAL_DIFF_eq]
  norm_num

/-! ## Claims -/

/-- Claim C1: with the authored configuration (10 dimensions, scale [1,10],
Profile "Human" built through the identity 1-10 → 1-10 mapping), the fit
score of the default all-5s task vector against Profile "Human" equals
`100.0 - (25/90)*100.0`. -/
theorem C1_default_task_vs_human :
    (PROFILES.lookup "Human").map (fun hv => fit_score defaults hv) =
      some (100 - (25 / 90) * 100) := by
  have h1 : PROFILES.lookup "Human" = some [9, 4, 3, 2, 1, 5, 8, 7, 7, 1] := by
    rw [PROFILES_eq_raw]
    rfl
  have h2 : total_diff defaults [9, 4, 3, 2, 1, 5, 8, 7, 7, 1] = 25 := by decide
  rw [h1, Option.map_some', fit_score_eq, h2]
  norm_num

/-- Claim C2: for task and profile vectors of length `len(DIMENSIONS)` with
every component on the canonical scale, the fit score is 100.0 exactly when
the two vectors are equal. -/
theorem C2_perfect_score_iff_equal (task profile : List Int)
    (hlt : task.length = DIMENSIONS.length)
    (hlp : profile.length = DIMENSIONS.length)
    (hbt : ∀ x ∈ task, SCALE_MIN ≤ x ∧ x ≤ SCALE_MAX)
    (hbp : ∀ x ∈ profile, SCALE_MIN ≤ x ∧ x ≤ SCALE_MAX) :
    fit_score task profile = 100 ↔ task = profile := by
  rw [fit_score_eq]
  have hd : (0 : ℚ) ≤ (total_diff task profile : ℚ) := by
    exact_mod_cast total_diff_nonneg task profile
  constructor
  · intro hmax
    have hX : (100 : ℚ) - (total_diff task profile : ℚ) / 90 * 100 = 100 := by
      rcases max_choice (0 : ℚ) (100 - (total_diff task profile : ℚ) / 90 * 100) with
        hc | hc
      · rw [hc] at hmax
        norm_num at hmax
      · rw [hc] at hmax
        exact hmax
    have hzero : (total_diff task profile : ℚ) = 0 := by
      have h100 : (total_diff task profile : ℚ) / 90 * 100 = 0 := by linarith
      field_simp at h100
      linarith
    have : total_diff task profile = 0 := by exact_mod_cast hzero
    exact (total_diff_eq_zero_iff task profile (by rw [hlt, hlp])).mp this
  · intro he
    subst he
    rw [total_diff_self]
    norm_num

/-- Witness for C2 at a concrete input: the default task vector compared
with itself scores exactly 100. -/
theorem C2_witness : fit_score defaults defaults = 100 :=
  (C2_perfect_score_iff_equal defaults defaults (by decide) (by decide)
    (by decide) (by decide)).mpr rfl

/-- Claim C3: the fit score is monotonically non-increasing in the total
absolute per-dimension difference `D`: a task vector at larger total
distance from the profile never scores higher. -/
theorem C3_score_antitone_in_diff (t1 t2 p : List Int)
    (h : total_diff t1 p ≤ total_diff t2 p) :
    fit_score t2 p ≤ fit_score t1 p := by
  rw [fit_score_eq, fit_score_eq]
  have hq : (total_diff t1 p : ℚ) ≤ (total_diff t2 p : ℚ) := by exact_mod_cast h
  apply max_le_max le_rfl
  linarith

/-- Witness for C3 at concrete inputs: moving every slider from 5 to 10
against the all-1s profile increases `D` and does not increase the score. -/
theorem C3_witness :
    total_diff defaults (List.replicate 10 1) ≤
        total_diff (List.replicate 10 10) (List.replicate 10 1) ∧
      fit_score (List.replicate 10 10) (List.replicate 10 1) ≤
        fit_score defaults (List.replicate 10 1) :=
  ⟨by decide, C3_score_antitone_in_diff defaults (List.replicate 10 10)
    (List.replicate 10 1) (by decide)⟩

theorem zip_append_of_le (t : List α) :
    ∀ p e : List β, t.length ≤ p.length → t.zip (p ++ e) = t.zip p := by
  induction t with
  | nil => intro p e h; simp
  | cons a t ih =>
    intro p e h
    cases p with
    | nil => simp at h
    | cons b p =>
      simp only [List.cons_append, List.zip_cons_cons]
      rw [ih p e (by simpa using h)]

theorem total_diff_append_of_le (t p e : List Int) (h : t.length ≤ p.length) :
    total_diff t (p ++ e) = total_diff t p := by
  unfold total_diff
  rw [zip_append_of_le t p e h]

/-- Claim C4 counterexample: `fit_score` has no length check and no
ShapeError path; called with vectors of mismatched lengths it returns a
number computed from the silently truncated `zip` pairing. -/
theorem C4_counterexample :
    ([5, 5] : List Int).length ≠ ([5] : List Int).length ∧
      fit_score [5, 5] [5] = 100 := by
  refine ⟨by decide, ?_⟩
  rw [fit_score_eq]
  have h : total_diff [5, 5] [5] = 0 := by decide
  rw [h]
  norm_num

/-- Claim C4 amended: `fit_score` performs no length validation; the `zip`
silently truncates the pairing to the shorter vector, so components of the
longer vector beyond the shorter one's length do not affect the score. -/
theorem C4_amended_truncation (task profile extra : List Int)
    (h : task.length ≤ profile.length) :
    fit_score task (profile ++ extra) = fit_score task profile := by
  rw [fit_score_eq, fit_score_eq, total_diff_append_of_le task profile extra h]

/-- Witness for the amended C4 at a concrete input: a trailing profile
component beyond the task vector's length is ignored. -/
theorem C4_amended_witness :
    ([5] : List Int).length ≤ ([9] : List Int).length ∧
      fit_score [5] ([9] ++ [3]) = fit_score [5] [9] :=
  ⟨by decide, C4_amended_truncation [5] [9] [3] (by decide)⟩

/-- Claim C5 counterexample: `map_to_scale` with a degenerate source range
and the (unique) in-range value reaches the unguarded division and fails
with `ZeroDivisionError`, which is not the `ValueError` kind used for an
out-of-range value. -/
theorem C5_counterexample :
    map_to_scale 5 5 5 = .error .zeroDivisionError ∧
      MapErr.zeroDivisionError ≠ MapErr.valueError :=
  ⟨rfl, by decide⟩

/-- Claim C5 amended: with `src_min == src_max`, a value different from the
common bound still fails the range check with `ValueError`, but the value
equal to the bound passes the check and crashes with an unguarded
`ZeroDivisionError` instead of the `ValueError` kind. -/
theorem C5_amended_degenerate (v lo : Int) :
    map_to_scale v lo lo =
      if v = lo then .error .zeroDivisionError else .error .valueError := by
  by_cases h : v = lo
  · subst h
    rw [if_pos rfl]
    unfold map_to_scale
    rw [if_neg (by omega), if_pos (by omega)]
  · rw [if_neg h]
    unfold map_to_scale
    rw [if_pos (by omega)]

theorem map_to_scale_ok_form (value lo hi : Int)
    (h1 : lo ≤ value) (h2 : value ≤ hi) (h3 : lo < hi) :
    map_to_scale value lo hi =
      .ok (pyRound (1 + ((value : ℚ) - (lo : ℚ)) / ((hi : ℚ) - (lo : ℚ)) * 9)) := by
  unfold map_to_scale
  rw [if_neg (by omega), if_neg (by omega)]
  have key : ((SCALE_MIN : Int) : ℚ) +
      ((value : ℚ) - (lo : ℚ)) / ((hi : ℚ) - (lo : ℚ)) *
      (((SCALE_MAX : Int) : ℚ) - ((SCALE_MIN : Int) : ℚ)) =
      1 + ((value : ℚ) - (lo : ℚ)) / ((hi : ℚ) - (lo : ℚ)) * 9 := by
    norm_num [SCALE_MIN, SCALE_MAX]
  rw [key]

/-- Claim C6: for a non-degenerate source range and an in-range value,
`map_to_scale` returns an integer in the destination range
`[SCALE_MIN, SCALE_MAX] = [1, 10]`, and it maps the source endpoints
exactly onto the destination endpoints. -/
theorem C6_range_and_endpoints (value lo hi : Int)
    (h1 : lo ≤ value) (h2 : value ≤ hi) (h3 : lo < hi) :
    (∃ r, map_to_scale value lo hi = .ok r ∧ 1 ≤ r ∧ r ≤ 10) ∧
      map_to_scale lo lo hi = .ok 1 ∧ map_to_scale hi lo hi = .ok 10 := by
  have hspan : (0 : ℚ) < (hi : ℚ) - (lo : ℚ) := by
    have : (lo : ℚ) < (hi : ℚ) := by exact_mod_cast h3
    linarith
  refine ⟨?_, ?_, ?_⟩
  · rw [map_to_scale_ok_form value lo hi h1 h2 h3]
    set q : ℚ := 1 + ((value : ℚ) - (lo : ℚ)) / ((hi : ℚ) - (lo : ℚ)) * 9 with hq
    have ht0 : (0 : ℚ) ≤ ((value : ℚ) - (lo : ℚ)) / ((hi : ℚ) - (lo : ℚ)) := by
      apply div_nonneg _ (le_of_lt hspan)
      have : (lo : ℚ) ≤ (value : ℚ) := by exact_mod_cast h1
      linarith
    have ht1 : ((value : ℚ) - (lo : ℚ)) / ((hi : ℚ) - (lo : ℚ)) ≤ 1 := by
      rw [div_le_one hspan]
      have : (value : ℚ) ≤ (hi : ℚ) := by exact_mod_cast h2
      linarith
    have hlow : ((1 : Int) : ℚ) ≤ q := by
      rw [hq]
      push_cast
      nlinarith
    have hhigh : q ≤ ((10 : Int) : ℚ) := by
      rw [hq]
      push_cast
      nlinarith
    obtain ⟨hb1, hb2⟩ := pyRound_bounds 1 10 q hlow hhigh
    exact ⟨pyRound q, rfl, hb1, hb2⟩
  · rw [map_to_scale_ok_form lo lo hi le_rfl (le_of_lt h3) h3]
    have : (1 : ℚ) + ((lo : ℚ) - (lo : ℚ)) / ((hi : ℚ) - (lo : ℚ)) * 9 =
        ((1 : Int) : ℚ) := by
      norm_num
    rw [this, pyRound_intCast]
  · rw [map_to_scale_ok_form hi lo hi (le_of_lt h3) le_rfl h3]
    have : (1 : ℚ) + ((hi : ℚ) - (lo : ℚ)) / ((hi : ℚ) - (lo : ℚ)) * 9 =
        ((10 : Int) : ℚ) := by
      rw [div_self (ne_of_gt hspan)]
      norm_num
    rw [this, pyRound_intCast]

/-- Witness for C6 at a concrete input: the default source range 1-10 with
the midpoint value 5. -/
theorem C6_witness :
    ((1 : Int) ≤ 5 ∧ (5 : Int) ≤ 10 ∧ (1 : Int) < 10) ∧
      (∃ r, map_to_scale 5 1 10 = .ok r ∧ 1 ≤ r ∧ r ≤ 10) ∧
      map_to_scale 1 1 10 = .ok 1 ∧ map_to_scale 10 1 10 = .ok 10 :=
  ⟨⟨by norm_num, by norm_num, by norm_num⟩,
    C6_range_and_endpoints 5 1 10 (by norm_num) (by norm_num) (by norm_num)⟩

/-- Claim C7: if the canonical scale collapses to a single point
(`SCALE_MIN == SCALE_MAX`, so `MAX_TOTAL_DIFF = 0`), the fit-score body
returns exactly 100.0 for all vectors via its defined special case, not a
division-by-zero fault. -/
theorem C7_scale_collapse (smin smax : Int) (n : Nat)
    (task profile : List Int) (h : smin = smax) :
    fit_score_core ((smax - smin) * n) task profile = 100 := by
  subst h
  simp [fit_score_core]

/-- Witness for C7 at a concrete input: a collapsed scale `[1, 1]` with ten
dimensions and fully different vectors still scores 100. -/
theorem C7_witness :
    fit_score_core ((1 - 1) * ((10 : Nat) : Int)) [3] [9] = 100 :=
  C7_scale_collapse 1 1 10 [3] [9] rfl

/-- Claim C8: for every nonempty value vector matching the dimension list in
length, a radar trace's point sequence has exactly N+1 points for N values,
its theta sequence is the dimension list in its fixed order plus the closing
repeat, and the closing point (point N) equals the first point (point 0). -/
theorem C8_polygon_closure (dims : List String) (values : List Int)
    (hlen : values.length = dims.length) (hpos : 1 ≤ values.length) :
    (radarPoints dims values).length = values.length + 1 ∧
      (radarPoints dims values)[0]? = (radarPoints dims values)[values.length]? ∧
      (radarPoints dims values).map Prod.fst = closeLoop dims := by
  cases values with
  | nil => simp at hpos
  | cons v vs =>
    cases dims with
    | nil => simp at hlen
    | cons d ds =>
      have hds : ds.length = vs.length := by simpa using hlen.symm
      have hcd : closeLoop (d :: ds) = d :: (ds ++ [d]) := by simp [closeLoop]
      have hcv : closeLoop (v :: vs) = v :: (vs ++ [v]) := by simp [closeLoop]
      refine ⟨?_, ?_, ?_⟩
      · simp [radarPoints, hcd, hcv, List.length_zip, hds]
      · rw [radarPoints, hcd, hcv, List.zip_cons_cons]
        have h0 : ((d, v) :: (ds ++ [d]).zip (vs ++ [v]))[0]? = some (d, v) :=
          List.getElem?_cons_zero
        have hN : ((d, v) :: (ds ++ [d]).zip (vs ++ [v]))[(v :: vs).length]? =
            some (d, v) := by
          have hl : (v :: vs).length = vs.length + 1 := by simp
          rw [hl, List.getElem?_cons_succ]
          apply List.getElem?_zip_eq_some.mpr
          constructor
          · rw [← hds]
            exact List.getElem?_concat_length ds d
          · exact List.getElem?_concat_length vs v
        rw [h0, hN]
      · rw [radarPoints]
        apply List.map_fst_zip
        simp [hcd, hcv, hds]

/-- Witness for C8 at a concrete input: the app's ten dimensions with the
default task vector. -/
theorem C8_witness :
    (defaults.length = DIMENSIONS.length ∧ 1 ≤ defaults.length) ∧
      (radarPoints DIMENSIONS defaults).length = defaults.length + 1 ∧
      (radarPoints DIMENSIONS defaults)[0]? =
        (radarPoints DIMENSIONS defaults)[defaults.length]? ∧
      (radarPoints DIMENSIONS defaults).map Prod.fst = closeLoop DIMENSIONS :=
  ⟨⟨by decide, by decide⟩, C8_polygon_closure DIMENSIONS defaults (by decide) (by decide)⟩

theorem insertDesc_perm (x : String × ℚ) (l : List (String × ℚ)) :
    (insertDesc x l).Perm (x :: l) := by
  induction l with
  | nil => exact List.Perm.refl _
  | cons y ys ih =>
    simp only [insertDesc]
    split_ifs with h
    · exact List.Perm.refl _
    · exact (ih.cons y).trans (List.Perm.swap x y ys)

theorem rank_perm (l : List (String × ℚ)) : (rank l).Perm l := by
  induction l with
  | nil => exact List.Perm.refl _
  | cons x xs ih =>
    simp only [rank]
    exact (insertDesc_perm x (rank xs)).trans (ih.cons x)

theorem insertDesc_pairwise (x : String × ℚ) (l : List (String × ℚ))
    (hl : l.Pairwise (fun a b => b.2 ≤ a.2)) :
    (insertDesc x l).Pairwise (fun a b => b.2 ≤ a.2) := by
  induction l with
  | nil => simp [insertDesc]
  | cons y ys ih =>
    simp only [insertDesc]
    obtain ⟨hy, hys⟩ := List.pairwise_cons.mp hl
    split_ifs with h
    · apply List.pairwise_cons.mpr
      refine ⟨?_, hl⟩
      intro z hz
      rcases List.mem_cons.mp hz with rfl | hzys
      · exact h
      · exact le_trans (hy z hzys) h
    · apply List.pairwise_cons.mpr
      refine ⟨?_, ih hys⟩
      intro z hz
      rcases List.mem_cons.mp ((insertDesc_perm x ys).mem_iff.mp hz) with rfl | hzys
      · exact le_of_not_le h
      · exact hy z hzys

theorem rank_pairwise (l : List (String × ℚ)) :
    (rank l).Pairwise (fun a b => b.2 ≤ a.2) := by
  induction l with
  | nil => simp [rank]
  | cons x xs ih =>
    simp only [rank]
    exact insertDesc_pairwise x (rank xs) ih

theorem insertDesc_filter (x : String × ℚ) (l : List (String × ℚ)) (s : ℚ) :
    (insertDesc x l).filter (fun p => decide (p.2 = s)) =
      if x.2 = s then x :: l.filter (fun p => decide (p.2 = s))
      else l.filter (fun p => decide (p.2 = s)) := by
  induction l with
  | nil =>
    by_cases hx : x.2 = s <;> simp [insertDesc, List.filter, hx]
  | cons y ys ih =>
    by_cases hyx : y.2 ≤ x.2
    · rw [show insertDesc x (y :: ys) = x :: y :: ys from by simp [insertDesc, hyx]]
      by_cases hx : x.2 = s <;> simp [List.filter_cons, hx]
    · rw [show insertDesc x (y :: ys) = y :: insertDesc x ys from by
        simp [insertDesc, hyx]]
      by_cases hx : x.2 = s
      · have hy : ¬(y.2 = s) := fun hy => hyx (le_of_eq (by rw [hy, hx]))
        simp [List.filter_cons, hx, hy, ih]
      · simp [List.filter_cons, hx, ih]

theorem rank_filter (l : List (String × ℚ)) (s : ℚ) :
    (rank l).filter (fun p => decide (p.2 = s)) =
      l.filter (fun p => decide (p.2 = s)) := by
  induction l with
  | nil => rfl
  | cons x xs ih =>
    simp only [rank]
    rw [insertDesc_filter]
    by_cases hx : x.2 = s
    · simp [List.filter_cons, hx, ih]
    · simp [List.filter_cons, hx, ih]

/-- Claim C9: `rank` sorts the (name, score) pairs by score descending as a
stable sort: the output is a permutation of the input, pairwise
non-increasing in score, elements of any one score value keep their input
order, every element's score is at most the first (best-match) element's
score, and the worked example ranks Human, AI, System. -/
theorem C9_rank_spec :
    (∀ scores : List (String × ℚ),
        (rank scores).Perm scores ∧
        (rank scores).Pairwise (fun a b => b.2 ≤ a.2) ∧
        (∀ s : ℚ, (rank scores).filter (fun p => decide (p.2 = s)) =
          scores.filter (fun p => decide (p.2 = s))) ∧
        ∀ y ∈ rank scores, ∀ x, (rank scores).head? = some x → y.2 ≤ x.2) ∧
      rank [("Human", (80 : ℚ)), ("System", 30), ("AI", 55)] =
        [("Human", 80), ("AI", 55), ("System", 30)] := by
  constructor
  · intro scores
    refine ⟨rank_perm scores, rank_pairwise scores, fun s => rank_filter scores s, ?_⟩
    intro y hy x hx
    cases hr : rank scores with
    | nil =>
      rw [hr] at hx
      simp at hx
    | cons a rest =>
      rw [hr] at hx hy
      simp only [List.head?_cons, Option.some.injEq] at hx
      subst hx
      have hp := rank_pairwise scores
      rw [hr] at hp
      rcases List.mem_cons.mp hy with rfl | hmem
      · exact le_rfl
      · exact (List.pairwise_cons.mp hp).1 y hmem
  · norm_num [rank, insertDesc]

/-- Witness for C9 at a concrete input: in the worked example, the ranked
sequence starts with ("Human", 80) and the listed ("System", 30) scores no
higher than it. -/
theorem C9_witness :
    ("System", (30 : ℚ)) ∈ rank [("Human", (80 : ℚ)), ("System", 30), ("AI", 55)] ∧
      (rank [("Human", (80 : ℚ)), ("System", 30), ("AI", 55)]).head? =
        some ("Human", 80) ∧
      (("System", (30 : ℚ)) : String × ℚ).2 ≤ (("Human", (80 : ℚ)) : String × ℚ).2 := by
  have hr := C9_rank_spec.2
  refine ⟨by rw [hr]; simp, by rw [hr]; rfl, ?_⟩
  exact (C9_rank_spec.1 _).2.2.2 ("System", 30) (by rw [hr]; simp) ("Human", 80)
    (by rw [hr]; rfl)

/-- Claim C10: the default source range of `map_to_scale` equals the
canonical scale, so the mapping is the identity on in-range raw scores;
hence every `PROFILES` entry equals its raw authored vector verbatim, has
length `len(DIMENSIONS) = 10`, and all its components lie within
`[SCALE_MIN, SCALE_MAX] = [1, 10]`.  (`PROFILES` is a module-level constant
of the embedding, so nothing mutates it after initialization.) -/
theorem C10_profiles_invariant :
    (∀ v : Int, 1 ≤ v → v ≤ 10 → map_to_scale v 1 10 = .ok v) ∧
      PROFILES = PROFILES_RAW ∧
      ∀ nv ∈ PROFILES, nv.2.length = DIMENSIONS.length ∧
        ∀ x ∈ nv.2, SCALE_MIN ≤ x ∧ x ≤ SCALE_MAX := by
  refine ⟨map_to_scale_id, PROFILES_eq_raw, ?_⟩
  rw [PROFILES_eq_raw]
  decide

/-- Witness for C10 at a concrete input: the first authored "Human" raw
score 9 maps to itself. -/
theorem C10_witness : map_to_scale 9 1 10 = .ok 9 :=
  C10_profiles_invariant.1 9 (by norm_num) (by norm_num)
